import Mathlib

set_option autoImplicit false

namespace EagleLang

/-
Verification of the eagle-lang agentic execution engine against its
specification.  Pure functions of the Python sources are embedded as Lean
definitions; external effects (file system scans, network, subprocesses,
codecs) enter as explicit parameters enumerating their possible outcomes.
-/

/-! ## Generic string-keyed dictionaries

Python dicts keyed by strings, as association lists.  `setKey` replaces the
first binding of the key in place (Python dicts keep the insertion position
of an overwritten key) and appends fresh keys at the end; `getKey` looks a
key up. -/

def setKey {α : Type} : List (String × α) → String → α → List (String × α)
  | [], k, v => [(k, v)]
  | (k0, v0) :: rest, k, v =>
      if k0 = k then (k, v) :: rest else (k0, v0) :: setKey rest k v

def getKey {α : Type} : List (String × α) → String → Option α
  | [], _ => none
  | (k0, v0) :: rest, k => if k0 = k then some v0 else getKey rest k

def keysOf {α : Type} (l : List (String × α)) : List String :=
  l.map Prod.fst

theorem getKey_setKey_self {α : Type} (l : List (String × α)) (k : String) (v : α) :
    getKey (setKey l k v) k = some v := by
  induction l with
  | nil => simp [setKey, getKey]
  | cons hd tl ih =>
      obtain ⟨k0, v0⟩ := hd
      by_cases h : k0 = k
      · simp [setKey, getKey, h]
      · simp [setKey, getKey, h, ih]

theorem getKey_setKey_other {α : Type} (l : List (String × α)) (k k1 : String) (v : α)
    (hne : k1 ≠ k) : getKey (setKey l k v) k1 = getKey l k1 := by
  induction l with
  | nil => simp [setKey, getKey, Ne.symm hne]
  | cons hd tl ih =>
      obtain ⟨k0, v0⟩ := hd
      by_cases h : k0 = k
      · subst h
        simp [setKey, getKey, Ne.symm hne, hne]
      · simp [setKey, getKey, h, ih]

theorem keysOf_setKey {α : Type} (l : List (String × α)) (k : String) (v : α) :
    keysOf (setKey l k v) = if k ∈ keysOf l then keysOf l else keysOf l ++ [k] := by
  induction l with
  | nil => simp [setKey, keysOf]
  | cons hd tl ih =>
      obtain ⟨k0, v0⟩ := hd
      by_cases h : k0 = k
      · subst h
        simp [setKey, keysOf]
      · simp only [setKey, keysOf, List.map_cons, if_neg h]
        simp only [keysOf] at ih
        by_cases hmem : k ∈ tl.map Prod.fst
        · simp [List.mem_cons, hmem, ih, Ne.symm h]
        · simp [List.mem_cons, hmem, ih, Ne.symm h]

theorem nodup_keys_setKey {α : Type} (l : List (String × α)) (k : String) (v : α)
    (h : (keysOf l).Nodup) : (keysOf (setKey l k v)).Nodup := by
  rw [keysOf_setKey]
  by_cases hmem : k ∈ keysOf l
  · simpa [hmem] using h
  · simp only [hmem, if_false]
    simpa [List.nodup_append] using ⟨h, hmem⟩

/-! ## Tool registry (claim C1)

`tools/base.py` itself is not among the provided sources; the registry data
model below is modelled from the spec: a mapping from tool name to
descriptor, `load_tools_from_directory` registering each descriptor a
directory yields with later registrations overwriting same-named earlier
ones.  `initializeTools` is translated from `_initialize_tools` in
`cli.py`: built-in tools first, then the project directory, then the user
directory. -/

structure ToolDescriptor where
  name : String
  description : String
  payload : String
deriving DecidableEq, Repr

def ToolRegistry : Type := List (String × ToolDescriptor)

def emptyRegistry : ToolRegistry := []

/-- Modelled from the spec: registering one descriptor keys it by its name,
fully replacing an earlier descriptor of the same name. -/
def registerTool (r : ToolRegistry) (d : ToolDescriptor) : ToolRegistry :=
  setKey r d.name d

/-- Modelled from the spec: a directory scan resolves a list of descriptors
and registers each in turn (`load_tools_from_directory`). -/
def loadToolsFromDirectory (r : ToolRegistry) (dir : List ToolDescriptor) : ToolRegistry :=
  dir.foldl registerTool r

/-- Translated from `_initialize_tools` in `cli.py`: load built-in tools,
then project-level `.eagle/tools`, then user-level `~/.eagle/tools`. -/
def initializeTools (builtin project user : List ToolDescriptor) : ToolRegistry :=
  loadToolsFromDirectory (loadToolsFromDirectory (loadToolsFromDirectory emptyRegistry builtin) project) user

def lookupTool (r : ToolRegistry) (n : String) : Option ToolDescriptor :=
  getKey r n

def countNamed (r : ToolRegistry) (n : String) : Nat :=
  (r.filter (fun p => p.1 = n)).length

/-- The descriptor a directory ends up contributing for a name: the last one
in scan order bearing that name, if any. -/
def lastNamed : List ToolDescriptor → String → Option ToolDescriptor
  | [], _ => none
  | d :: ds, n =>
      match lastNamed ds n with
      | some d1 => some d1
      | none => if d.name = n then some d else none

theorem lookupTool_loadDir (dir : List ToolDescriptor) (r : ToolRegistry) (n : String) :
    lookupTool (loadToolsFromDirectory r dir) n =
      match lastNamed dir n with
      | some d => some d
      | none => lookupTool r n := by
  induction dir generalizing r with
  | nil => simp [loadToolsFromDirectory, lastNamed]
  | cons d ds ih =>
      show lookupTool (loadToolsFromDirectory (registerTool r d) ds) n = _
      rw [ih]
      cases hlast : lastNamed ds n with
      | some d1 => simp [lastNamed, hlast]
      | none =>
          by_cases h : d.name = n
          · subst h
            simp [lastNamed, hlast, lookupTool, registerTool, getKey_setKey_self]
          · simp [lastNamed, hlast, h, lookupTool, registerTool,
              getKey_setKey_other r d.name n d (Ne.symm h)]

theorem nodup_keys_loadDir (dir : List ToolDescriptor) (r : ToolRegistry)
    (h : (keysOf r).Nodup) : (keysOf (loadToolsFromDirectory r dir)).Nodup := by
  induction dir generalizing r with
  | nil => exact h
  | cons d ds ih => exact ih (registerTool r d) (nodup_keys_setKey r d.name d h)

theorem countNamed_of_nodup (r : ToolRegistry) (n : String) (h : (keysOf r).Nodup) :
    countNamed r n = if (lookupTool r n).isSome then 1 else 0 := by
  induction r with
  | nil => simp [countNamed, lookupTool, getKey]
  | cons hd tl ih =>
      obtain ⟨k0, v0⟩ := hd
      simp only [keysOf, List.map_cons, List.nodup_cons] at h
      obtain ⟨hk0, htl⟩ := h
      by_cases hk : k0 = n
      · subst hk
        have hcount : (tl.filter (fun p => p.1 = k0)).length = 0 := by
          rw [List.length_eq_zero, List.filter_eq_nil_iff]
          intro p hp hdec
          exact hk0 (by
            have : p.1 = k0 := by simpa using hdec
            rw [← this]
            exact List.mem_map_of_mem Prod.fst hp)
        simp [countNamed, lookupTool, getKey, List.filter, hcount]
      · have htail := ih htl
        simpa [countNamed, lookupTool, getKey, hk] using htail

/-- Claim C1: tool directories are loaded built-in first, then project, then
user, each pass overwriting same-named entries; after loading directory A
then directory B that both define a tool named `n`, the registry holds
exactly one descriptor named `n`, equal to B's definition. -/
theorem c1_tool_directory_override (builtin dirA dirB : List ToolDescriptor)
    (n : String) (dB : ToolDescriptor)
    (_hA : ∃ d ∈ dirA, d.name = n)
    (hB : lastNamed dirB n = some dB) :
    lookupTool (initializeTools builtin dirA dirB) n = some dB ∧
    countNamed (initializeTools builtin dirA dirB) n = 1 := by
  have hlook : lookupTool (initializeTools builtin dirA dirB) n = some dB := by
    rw [initializeTools, lookupTool_loadDir, hB]
  refine ⟨hlook, ?_⟩
  have hnodup : (keysOf (initializeTools builtin dirA dirB)).Nodup := by
    apply nodup_keys_loadDir
    apply nodup_keys_loadDir
    apply nodup_keys_loadDir
    simp [emptyRegistry, keysOf]
  rw [countNamed_of_nodup _ _ hnodup, hlook]
  rfl

/-- Witness for C1 at a concrete pair of directories both defining `x`. -/
theorem c1_tool_directory_override_witness :
    lookupTool
      (initializeTools []
        [⟨"x", "from A", "A"⟩]
        [⟨"x", "from B", "B"⟩]) "x" = some ⟨"x", "from B", "B"⟩ ∧
    countNamed
      (initializeTools []
        [⟨"x", "from A", "A"⟩]
        [⟨"x", "from B", "B"⟩]) "x" = 1 :=
  c1_tool_directory_override [] [⟨"x", "from A", "A"⟩] [⟨"x", "from B", "B"⟩]
    "x" ⟨"x", "from B", "B"⟩ (by decide) (by decide)

/-! ## Interactive-mode session history (claim C2)

Translated from `start_interactive_mode` in `cli.py`, lines 155-171.  One
successful REPL exchange appends the user turn, appends the assistant turn,
then trims `session_history = session_history[-50:]` whenever the length
exceeds 50.  When `_get_llm_response` raises, the `except` branch is taken
after the user turn was already appended, so no assistant turn is appended
and no trim runs. -/

structure ChatMsg where
  role : String
  content : String
deriving DecidableEq, Repr

/-- One successful exchange of the interactive loop (`cli.py` 155-168). -/
def replSuccessStep (h : List ChatMsg) (userInput response : String) : List ChatMsg :=
  let h1 := h ++ [⟨"user", userInput⟩]
  let h2 := h1 ++ [⟨"assistant", response⟩]
  if 50 < h2.length then h2.drop (h2.length - 50) else h2

/-- One failed exchange (`cli.py` 155-171): the user turn was appended, then
the interpreter call raised, skipping the assistant append and the trim. -/
def replErrorStep (h : List ChatMsg) (userInput : String) : List ChatMsg :=
  h ++ [⟨"user", userInput⟩]

/-- A run of successful exchanges. -/
def replSuccessRun (h : List ChatMsg) (ps : List (String × String)) : List ChatMsg :=
  ps.foldl (fun acc p => replSuccessStep acc p.1 p.2) h

/-- The turns a run of exchanges appends, in order. -/
def exchangeTurns (ps : List (String × String)) : List ChatMsg :=
  ps.foldr (fun p acc => ⟨"user", p.1⟩ :: ⟨"assistant", p.2⟩ :: acc) []

theorem replSuccessRun_cons (h : List ChatMsg) (p : String × String)
    (ps : List (String × String)) :
    replSuccessRun h (p :: ps) = replSuccessRun (replSuccessStep h p.1 p.2) ps := rfl

theorem exchangeTurns_cons (p : String × String) (ps : List (String × String)) :
    exchangeTurns (p :: ps) =
      ChatMsg.mk "user" p.1 :: ChatMsg.mk "assistant" p.2 :: exchangeTurns ps := rfl

theorem replSuccessStep_eq_drop (h : List ChatMsg) (u a : String) :
    replSuccessStep h u a =
      (h ++ [ChatMsg.mk "user" u, ChatMsg.mk "assistant" a]).drop ((h.length + 2) - 50) := by
  unfold replSuccessStep
  have hL : (h ++ [ChatMsg.mk "user" u]) ++ [ChatMsg.mk "assistant" a] =
      h ++ [ChatMsg.mk "user" u, ChatMsg.mk "assistant" a] := by
    simp
  simp only [hL]
  have hlen : (h ++ [ChatMsg.mk "user" u, ChatMsg.mk "assistant" a]).length = h.length + 2 := by
    simp
  rw [hlen]
  by_cases hc : 50 < h.length + 2
  · rw [if_pos hc]
  · rw [if_neg hc]
    have h0 : h.length + 2 - 50 = 0 := by omega
    rw [h0, List.drop_zero]

/-- Dropping down to the 50 newest, appending more, and again dropping down
to the 50 newest is the same as appending and dropping once. -/
theorem drop_trim_append {α : Type} (L E : List α) :
    (L.drop (L.length - 50) ++ E).drop ((L.drop (L.length - 50) ++ E).length - 50) =
      (L ++ E).drop ((L ++ E).length - 50) := by
  have h1 : L.drop (L.length - 50) ++ E = (L ++ E).drop (L.length - 50) := by
    rw [List.drop_append_eq_append_drop]
    have h0 : L.length - 50 - L.length = 0 := by omega
    rw [h0, List.drop_zero]
  rw [h1, List.length_drop, List.drop_drop, List.length_append]
  congr 1
  omega

theorem replSuccessRun_eq_drop (h : List ChatMsg) (p : String × String)
    (ps : List (String × String)) :
    replSuccessRun h (p :: ps) =
      (h ++ exchangeTurns (p :: ps)).drop ((h ++ exchangeTurns (p :: ps)).length - 50) := by
  induction ps generalizing h p with
  | nil =>
      rw [replSuccessRun_cons]
      show replSuccessStep h p.1 p.2 = _
      rw [replSuccessStep_eq_drop, exchangeTurns_cons]
      show _ = (h ++ [ChatMsg.mk "user" p.1, ChatMsg.mk "assistant" p.2]).drop _
      congr 1
      simp only [exchangeTurns, List.foldr_nil, List.length_nil, List.length_append,
        List.length_cons]
  | cons q qs ih =>
      rw [replSuccessRun_cons, ih, replSuccessStep_eq_drop]
      have hlen : (h.length + 2) - 50 =
          (h ++ [ChatMsg.mk "user" p.1, ChatMsg.mk "assistant" p.2]).length - 50 := by
        simp
      rw [hlen, drop_trim_append]
      have hsplit : h ++ exchangeTurns (p :: q :: qs) =
          (h ++ [ChatMsg.mk "user" p.1, ChatMsg.mk "assistant" p.2]) ++ exchangeTurns (q :: qs) := by
        rw [exchangeTurns_cons]
        simp
      rw [hsplit]

set_option maxRecDepth 8000

/-- Counterexample to C2 as stated: a reachable interactive-mode state
holding 51 turns.  Twenty-five successful exchanges leave 50 turns; one
failed exchange then appends a user turn without trimming. -/
theorem c2_turn_log_counterexample :
    50 < (replErrorStep (replSuccessRun [] (List.replicate 25 ("u", "a"))) "again").length ∧
    (replErrorStep (replSuccessRun [] (List.replicate 25 ("u", "a"))) "again").length = 51 := by
  constructor <;> decide

/-- Claim C2, amended: every successful exchange trims the history to the
newest 50 turns in their original relative order, evicting oldest first, so
the log never exceeds 50 turns at successful-exchange boundaries; a failed
exchange, however, appends the user turn without trimming, so the log can
transiently hold 51 turns. -/
theorem c2_turn_log_amended (h : List ChatMsg) (p : String × String)
    (ps : List (String × String)) (u : String) :
    (replSuccessRun h (p :: ps)).length ≤ 50 ∧
    replSuccessRun h (p :: ps) =
      (h ++ exchangeTurns (p :: ps)).drop ((h ++ exchangeTurns (p :: ps)).length - 50) ∧
    (replErrorStep h u).length = h.length + 1 := by
  refine ⟨?_, replSuccessRun_eq_drop h p ps, by simp [replErrorStep]⟩
  rw [replSuccessRun_eq_drop h p ps, List.length_drop]
  omega

/-! ## Permission gate (claim C6)

The interpreter sources (`interpreter.py`) are not among the provided
files; the gate is modelled from the spec. -/

/-- Modelled from the spec: PermissionGate holds the configured
"require_permission" set and the per-session set of tools the user has
already approved with "always allow". -/
structure PermissionGate where
  requirePermission : List String
  granted : List String
deriving DecidableEq, Repr

/-- Modelled from the spec: true if the tool is in the configured
"require_permission" set and not already granted this session. -/
def requiresConfirmation (g : PermissionGate) (toolName : String) : Bool :=
  decide (toolName ∈ g.requirePermission) && !(decide (toolName ∈ g.granted))

/-- Modelled from the spec: an "always allow" approval records a
session-scoped grant. -/
def grantAlways (g : PermissionGate) (toolName : String) : PermissionGate :=
  { g with granted := toolName :: g.granted }

/-- Modelled from the spec: a fresh session starts with no grants. -/
def freshGate (requirePermission : List String) : PermissionGate :=
  ⟨requirePermission, []⟩

/-- Claim C6: `requires_confirmation` is true exactly for tools of the
configured require-permission set not yet granted this session; in
particular it is true for a require-permission tool before any grant and
false immediately after an "always allow" grant. -/
theorem c6_requires_confirmation (req : List String) (g : PermissionGate) (t : String) :
    (requiresConfirmation g t = true ↔ t ∈ g.requirePermission ∧ t ∉ g.granted) ∧
    (requiresConfirmation (freshGate req) t = true ↔ t ∈ req) ∧
    requiresConfirmation (grantAlways g t) t = false := by
  refine ⟨?_, ?_, ?_⟩
  · simp [requiresConfirmation]
  · simp [requiresConfirmation, freshGate]
  · simp [requiresConfirmation, grantAlways]

/-! ## Interpreter loop iteration ceiling (claim C7)

`interpreter.py` is not among the provided files; the loop is modelled from
the spec: each iteration invokes the provider once; a final answer
terminates the loop, tool-call requests are executed, their textual results
appended as tool-result turns, and the loop re-enters with the augmented
conversation; a hard iteration ceiling terminates the run with a
LoopLimitExceeded outcome. -/

structure ToolCallRequest where
  toolName : String
  arguments : List (String × String)
  callId : String
deriving DecidableEq, Repr

inductive ProviderResponse where
  | finalAnswer (text : String)
  | toolCalls (requests : List ToolCallRequest)
deriving DecidableEq, Repr

inductive LoopOutcome where
  | done (answer : String)
  | loopLimitExceeded
deriving DecidableEq, Repr

/-- Modelled from the spec: the interpreter loop under an iteration
ceiling, returning the outcome together with the number of provider calls
made. -/
def interpreterLoop (provider : List ChatMsg → ProviderResponse)
    (execTool : ToolCallRequest → String) :
    Nat → List ChatMsg → LoopOutcome × Nat
  | 0, _ => (.loopLimitExceeded, 0)
  | fuel + 1, conv =>
      match provider conv with
      | .finalAnswer t => (.done t, 1)
      | .toolCalls reqs =>
          let conv2 := conv ++ reqs.map (fun r => ChatMsg.mk "tool-result" (execTool r))
          let rest := interpreterLoop provider execTool fuel conv2
          (rest.1, rest.2 + 1)

/-- Claim C7: with a provider stub that always requests tool calls and
never returns a final answer, the loop terminates with LoopLimitExceeded
after exactly the configured ceiling of provider iterations. -/
theorem c7_loop_limit (provider : List ChatMsg → ProviderResponse)
    (execTool : ToolCallRequest → String) (ceiling : Nat) (conv : List ChatMsg)
    (hstub : ∀ c, ∃ reqs, provider c = .toolCalls reqs) :
    interpreterLoop provider execTool ceiling conv = (.loopLimitExceeded, ceiling) := by
  induction ceiling generalizing conv with
  | zero => rfl
  | succ n ih =>
      obtain ⟨reqs, hreqs⟩ := hstub conv
      simp [interpreterLoop, hreqs, ih]

/-- Witness for C7 at a concrete always-tool-calling stub and ceiling 3. -/
theorem c7_loop_limit_witness :
    interpreterLoop (fun _ => .toolCalls [⟨"echo", [("text", "hi")], "call-1"⟩])
      (fun _ => "hi") 3 [] = (.loopLimitExceeded, 3) :=
  c7_loop_limit (fun _ => .toolCalls [⟨"echo", [("text", "hi")], "call-1"⟩])
    (fun _ => "hi") 3 [] (fun _ => ⟨[⟨"echo", [("text", "hi")], "call-1"⟩], rfl⟩)

/-! ## Python exceptions

The exception values the embedded code can raise or catch.  `otherExc`
stands for any exception not matched by an earlier, more specific handler;
its string is what `str(e)` yields on it. -/

inductive PyExc where
  | httpError (code : Int) (reason : String)
  | urlError (reason : String)
  | timeoutErr
  | valueError (msg : String)
  | keyError (key : String)
  | otherExc (msg : String)
deriving DecidableEq, Repr

/-! ## The web tool (`default-config/tools/web/__init__.py`)

`execute` delegates to `_make_request`.  External effects enter as
parameters: `parsed` is the `urlparse` result (`none` when `urlparse`
raised), `utf8Decode` and `latin1Decode` are the codecs, and `net` is the
outcome of `urllib.request.urlopen` together with reading the response
(`raises e` covers an exception raised anywhere in the guarded block, which
the `except` clauses at its end catch).  Alongside the returned text the
embedding records a trace of the source's observables: whether the network
request was attempted, the body bytes included in the returned text, the
truncation flag, and the capped content-length limit once computed. -/

structure ParsedUrl where
  scheme : String
  hostname : Option String
deriving DecidableEq, Repr

structure HttpResponse where
  status : Int
  reason : String
  finalUrl : String
  contentTypeHeader : Option String
  contentLengthHeader : Option Int
  body : List Nat
deriving DecidableEq, Repr

inductive UrlopenOutcome where
  | success (resp : HttpResponse)
  | raises (e : PyExc)
deriving DecidableEq, Repr

structure WebArgs where
  url : String
  method : String
  headers : Option (List (String × String))
  data : Option String
  timeout : Int
  maxContentLength : Int
deriving DecidableEq, Repr

structure WebTrace where
  requested : Bool
  includedBody : List Nat
  truncated : Bool
  effectiveLimit : Option Int
deriving DecidableEq, Repr

/-- Python `str.lower()` on the ASCII hostnames involved here: lowercase
every character. -/
def pyLower (s : String) : String := String.mk (s.data.map Char.toLower)

def charsBegin : List Char → List Char → Bool
  | [], _ => true
  | _ :: _, [] => false
  | p :: ps, c :: cs => p == c && charsBegin ps cs

/-- Python `s.startswith(pat)`. -/
def pyStartsWith (s pat : String) : Bool := charsBegin pat.data s.data

/-- The loopback blocklist of `_is_safe_url`. -/
def blockedHosts : List String := ["localhost", "127.0.0.1", "0.0.0.0", "::1"]

/-- Translated from `WebTool._is_safe_url`: reject schemes other than http
and https, reject loopback hostnames, and treat a parse failure as unsafe. -/
def isSafeUrl (parsed : Option ParsedUrl) : Bool :=
  match parsed with
  | none => false
  | some p =>
      if p.scheme = "http" ∨ p.scheme = "https" then
        match p.hostname with
        | some h => !(decide (pyLower h ∈ blockedHosts))
        | none => true
      else false

/-- Translated from `_make_request` line 96:
`max_content_length = min(max_content_length, 10 * 1024 * 1024)`. -/
def effectiveLimit (maxContentLength : Int) : Int :=
  min maxContentLength (10 * 1024 * 1024)

/-- Python `content[:k]` on a bytes value, including the negative-index
case: a negative `k` keeps all but the last `|k|` bytes. -/
def pySliceTo (k : Int) (l : List Nat) : List Nat :=
  if 0 ≤ k then l.take k.toNat
  else l.take ((l.length : Int) + k).toNat

def fiftyEquals : String := String.mk (List.replicate 50 '=')

def truncMarker (eff : Int) : String :=
  "(Content truncated to " ++ toString eff ++ " bytes)\n"

def webHeaderText (resp : HttpResponse) (contentLen : Nat) : String :=
  "HTTP " ++ toString resp.status ++ " " ++ resp.reason
    ++ "\nURL: " ++ resp.finalUrl
    ++ "\nContent-Type: " ++ resp.contentTypeHeader.getD "unknown"
    ++ "\nContent-Length: " ++ toString contentLen ++ " bytes\n"

/-- The result text built at the end of `_make_request` (lines 157-168). -/
def webResultText (eff : Int) (resp : HttpResponse) (contentLen : Nat)
    (truncated : Bool) (textContent : String) : String :=
  webHeaderText resp contentLen ++
    ((if truncated then truncMarker eff else "") ++
      ("\n" ++ fiftyEquals ++ "\n" ++ textContent))

/-- The body-reading half of `_make_request` (lines 137-168): truncate the
body to the capped limit, try utf-8 then latin-1, and either render the
result text or report binary content. -/
def webSuccessBody (eff : Int) (resp : HttpResponse)
    (utf8Decode latin1Decode : List Nat → Option String) :
    Except PyExc String × WebTrace :=
  let truncated : Bool := decide (eff < (resp.body.length : Int))
  let content := if truncated then pySliceTo eff resp.body else resp.body
  match utf8Decode content with
  | some t =>
      (.ok (webResultText eff resp content.length truncated t),
       ⟨true, content, truncated, some eff⟩)
  | none =>
      match latin1Decode content with
      | some t =>
          (.ok (webResultText eff resp content.length truncated t),
           ⟨true, content, truncated, some eff⟩)
      | none =>
          (.ok ("Binary content received (" ++ toString content.length
              ++ " bytes). Cannot display as text."),
           ⟨true, [], truncated, some eff⟩)

/-- Translated from `WebTool._make_request`.  The request-preparation steps
(header assembly, content-type sniffing) do not affect the returned text or
the recorded trace and are elided; an exception raised by them or by the
request itself is the `UrlopenOutcome.raises` case, handled by the `except`
clauses. -/
def webMakeRequest (args : WebArgs) (parsed : Option ParsedUrl)
    (utf8Decode latin1Decode : List Nat → Option String)
    (net : UrlopenOutcome) : Except PyExc String × WebTrace :=
  if !(pyStartsWith args.url "http://" || pyStartsWith args.url "https://") then
    (.ok ("Invalid URL: " ++ (args.url ++ ". Must start with http:// or https://")),
     ⟨false, [], false, none⟩)
  else if !(isSafeUrl parsed) then
    (.ok ("Access denied: URL blocked for security: " ++ args.url),
     ⟨false, [], false, none⟩)
  else
    let eff := effectiveLimit args.maxContentLength
    match net with
    | .raises (.httpError code reason) =>
        (.ok ("HTTP Error " ++ toString code ++ ": " ++ reason ++ "\nURL: " ++ args.url),
         ⟨true, [], false, some eff⟩)
    | .raises (.urlError reason) =>
        (.ok ("URL Error: " ++ reason ++ "\nURL: " ++ args.url),
         ⟨true, [], false, some eff⟩)
    | .raises .timeoutErr =>
        (.ok ("Request timed out after " ++ toString args.timeout ++ " seconds\nURL: " ++ args.url),
         ⟨true, [], false, some eff⟩)
    | .raises (.valueError m) =>
        (.ok ("Error making request: " ++ m ++ "\nURL: " ++ args.url),
         ⟨true, [], false, some eff⟩)
    | .raises (.keyError k) =>
        (.ok ("Error making request: " ++ k ++ "\nURL: " ++ args.url),
         ⟨true, [], false, some eff⟩)
    | .raises (.otherExc m) =>
        (.ok ("Error making request: " ++ m ++ "\nURL: " ++ args.url),
         ⟨true, [], false, some eff⟩)
    | .success resp =>
        match resp.contentLengthHeader with
        | some cl =>
            if eff < cl then
              (.ok ("Content too large: " ++ toString cl ++ " bytes (max: " ++ toString eff ++ ")"),
               ⟨true, [], false, some eff⟩)
            else webSuccessBody eff resp utf8Decode latin1Decode
        | none => webSuccessBody eff resp utf8Decode latin1Decode

/-- Translated from `WebTool.execute`: it forwards to `_make_request`. -/
def webExecute (args : WebArgs) (parsed : Option ParsedUrl)
    (utf8Decode latin1Decode : List Nat → Option String)
    (net : UrlopenOutcome) : Except PyExc String × WebTrace :=
  webMakeRequest args parsed utf8Decode latin1Decode net

/-! ## The call_agent tool (`default_config/tools/call_agent/__init__.py`)

`execute` writes the instructions to a temporary `.caw` file, runs
`eagle run` on it as a blocking subprocess with a 300-second timeout, and
renders the outcome as text.  `SubprocessOutcome` enumerates what
`subprocess.run` can do; `CallAgentOutcome.raisesOther` covers an exception
raised anywhere else inside the outer guarded block (temp-file I/O
included), which the final `except Exception` handler catches.
`savedPath` is the name of the temporary output file used when
`save_output` is set. -/

structure CallAgentArgs where
  instructions : String
  agent : Option String
  provider : Option String
  model : Option String
  rules : Option String
  saveOutput : Bool
deriving DecidableEq, Repr

inductive SubprocessOutcome where
  | completed (returncode : Int) (stdout : String) (stderr : String)
  | timeoutExpired
  | fileNotFound
deriving DecidableEq, Repr

inductive CallAgentOutcome where
  | ranSubprocess (r : SubprocessOutcome) (savedPath : String)
  | raisesOther (msg : String)
deriving DecidableEq, Repr

/-- Python `agent if agent else "default agent"`: `None` and the empty
string are both falsy. -/
def pyOrDefaultAgent : Option String → String
  | none => "default agent"
  | some s => if s = "" then "default agent" else s

/-- Translated from `CallAgentTool.execute`. -/
def callAgentExecute (args : CallAgentArgs) (o : CallAgentOutcome) : Except PyExc String :=
  match o with
  | .raisesOther m => .ok ("Error executing agent call: " ++ m)
  | .ranSubprocess r savedPath =>
      match r with
      | .timeoutExpired => .ok "Agent call timed out after 5 minutes"
      | .fileNotFound =>
          .ok "Error: \x27eagle\x27 command not found. Make sure Eagle is installed and in your PATH."
      | .completed rc out err =>
          if rc = 0 then
            let response :=
              "Agent call to " ++ pyOrDefaultAgent args.agent
                ++ " completed successfully:\n\n" ++ out
            if args.saveOutput then
              .ok (response ++ ("\n\nOutput saved to: " ++ savedPath))
            else
              .ok response
          else
            .ok ("Agent call to " ++ pyOrDefaultAgent args.agent
              ++ " failed (exit code " ++ toString rc ++ "):\n\nStdout:\n" ++ out
              ++ "\n\nStderr:\n" ++ err)

theorem append_len_pos (a b : String) (h : 0 < a.length) : 0 < (a ++ b).length := by
  rw [String.length_append]
  omega

/-- Claim C3: for every argument assignment and every outcome of the
external world, the web tool's `execute` and the call_agent tool's
`execute` return a (nonempty) string and never let an exception escape:
every failure path is rendered as text by a handler. -/
theorem c3_execute_total :
    (∀ (args : WebArgs) (parsed : Option ParsedUrl)
        (utf8Decode latin1Decode : List Nat → Option String) (net : UrlopenOutcome),
      ∃ s, (webExecute args parsed utf8Decode latin1Decode net).1 = Except.ok s ∧
        0 < s.length) ∧
    (∀ (args : CallAgentArgs) (o : CallAgentOutcome),
      ∃ s, callAgentExecute args o = Except.ok s ∧ 0 < s.length) := by
  constructor
  · intro args parsed utf8Decode latin1Decode net
    simp only [webExecute, webMakeRequest, webSuccessBody, webResultText, webHeaderText]
    repeat' split
    all_goals exact ⟨_, rfl, by
      repeat first
        | decide
        | apply append_len_pos⟩
  · intro args o
    simp only [callAgentExecute]
    repeat' split
    all_goals exact ⟨_, rfl, by
      repeat first
        | decide
        | apply append_len_pos⟩

/-- Counterexample to C4 as stated: when the delegated run prints the final
answer `done: hi` and exits 0, the tool result is a success banner followed
by the whole captured stdout — not the bare final-answer text. -/
theorem c4_call_agent_counterexample :
    callAgentExecute ⟨"Summarize the data", none, none, none, none, false⟩
        (.ranSubprocess (.completed 0 "done: hi" "") "") =
      Except.ok "Agent call to default agent completed successfully:\n\ndone: hi" ∧
    callAgentExecute ⟨"Summarize the data", none, none, none, none, false⟩
        (.ranSubprocess (.completed 0 "done: hi" "") "") ≠
      Except.ok "done: hi" := by
  refine ⟨rfl, fun h => ?_⟩
  have h2 := Except.ok.inj h
  exact absurd h2 (by decide)

/-- Claim C4, amended: `execute` runs the delegated agent synchronously as
a blocking `eagle run` subprocess with a 300-second timeout; when the
subprocess completes with exit code 0 (and `save_output` is off) the tool
result string is the banner naming the agent followed by the entire
captured standard output of the sub-run — which carries its final answer —
rather than the bare final-answer text; a timed-out sub-run is killed and
reported as a timeout message. -/
theorem c4_call_agent_amended (args : CallAgentArgs) (rc : Int)
    (out err savedPath : String) (hrc : rc = 0) (hsave : args.saveOutput = false) :
    callAgentExecute args (.ranSubprocess (.completed rc out err) savedPath) =
      Except.ok ("Agent call to " ++ pyOrDefaultAgent args.agent
        ++ " completed successfully:\n\n" ++ out) ∧
    callAgentExecute args (.ranSubprocess .timeoutExpired savedPath) =
      Except.ok "Agent call timed out after 5 minutes" := by
  subst hrc
  constructor
  · simp [callAgentExecute, hsave]
  · rfl

/-- Witness for C4's amended claim at a concrete delegation. -/
theorem c4_call_agent_amended_witness :
    (0 : Int) = 0 ∧
    (CallAgentArgs.mk "task" (some "researcher") none none none false).saveOutput = false ∧
    (callAgentExecute ⟨"task", some "researcher", none, none, none, false⟩
        (.ranSubprocess (.completed 0 "answer" "") "tmp") =
      Except.ok ("Agent call to " ++ pyOrDefaultAgent (some "researcher")
        ++ " completed successfully:\n\n" ++ "answer") ∧
    callAgentExecute ⟨"task", some "researcher", none, none, none, false⟩
        (.ranSubprocess .timeoutExpired "tmp") =
      Except.ok "Agent call timed out after 5 minutes") :=
  ⟨rfl, rfl, c4_call_agent_amended ⟨"task", some "researcher", none, none, none, false⟩
    0 "answer" "" "tmp" rfl rfl⟩

/-! ## Delegation frame property (claim C5)

The parent interpreter state is modelled from the spec (`interpreter.py`
is not among the provided files): a PermissionGate plus the session turn
log.  `CallAgentTool.execute` runs the sub-agent as a separate OS process
(`subprocess.run`) and never reads or writes the parent interpreter; the
embedding makes the parent state an explicit input and output, and carries
the sub-process's own final in-memory state inside the outcome so the
theorem can say it does not leak. -/

structure LoopState where
  permissionGate : PermissionGate
  sessionHistory : List ChatMsg
deriving Repr

structure SubRunResult where
  subFinalState : LoopState
  outcome : CallAgentOutcome

/-- `CallAgentTool.execute` with the parent loop's state threaded through:
the source never touches it, so it passes through unchanged. -/
def callAgentRunFromParent (parent : LoopState) (args : CallAgentArgs)
    (sub : SubRunResult) : Except PyExc String × LoopState :=
  (callAgentExecute args sub.outcome, parent)

/-- Claim C5: executing a delegated sub-agent leaves the parent loop's
PermissionGate and session memory unchanged; the tool result depends only
on the subprocess outcome, never on the sub-run's internal state, so no
grant made during the sub-run is visible to the parent. -/
theorem c5_delegation_frame (parent : LoopState) (args : CallAgentArgs)
    (sub : SubRunResult) :
    (callAgentRunFromParent parent args sub).2.permissionGate = parent.permissionGate ∧
    (callAgentRunFromParent parent args sub).2.sessionHistory = parent.sessionHistory ∧
    (∀ t, requiresConfirmation (callAgentRunFromParent parent args sub).2.permissionGate t =
      requiresConfirmation parent.permissionGate t) ∧
    (callAgentRunFromParent parent args sub).1 = callAgentExecute args sub.outcome :=
  ⟨rfl, rfl, fun _ => rfl, rfl⟩

/-- Claim C8: for a URL parsing to a scheme other than http/https or to a
loopback hostname, the web tool returns an Invalid URL or Access denied
text without attempting the network request. -/
theorem c8_unsafe_url_no_request (args : WebArgs) (p : ParsedUrl)
    (utf8Decode latin1Decode : List Nat → Option String) (net : UrlopenOutcome)
    (hbad : (p.scheme ≠ "http" ∧ p.scheme ≠ "https") ∨
      (∃ h, p.hostname = some h ∧ h ∈ blockedHosts)) :
    (webExecute args (some p) utf8Decode latin1Decode net).2.requested = false ∧
    ∃ s, (webExecute args (some p) utf8Decode latin1Decode net).1 = Except.ok s ∧
      ((∃ rest, s = "Invalid URL: " ++ rest) ∨
       (∃ rest, s = "Access denied: URL blocked for security: " ++ rest)) := by
  have hsafe : isSafeUrl (some p) = false := by
    simp only [isSafeUrl]
    rcases hbad with ⟨h1, h2⟩ | ⟨h, hh, hmem⟩
    · rw [if_neg (by rintro (hc | hc); exacts [h1 hc, h2 hc])]
    · by_cases hscheme : p.scheme = "http" ∨ p.scheme = "https"
      · rw [if_pos hscheme, hh]
        have hl : pyLower h = h := by
          simp only [blockedHosts, List.mem_cons, List.mem_singleton,
            List.not_mem_nil, or_false] at hmem
          rcases hmem with rfl | rfl | rfl | rfl <;> decide
        simp [hl, hmem]
      · rw [if_neg hscheme]
  unfold webExecute webMakeRequest
  by_cases hstart : (pyStartsWith args.url "http://" || pyStartsWith args.url "https://") = true
  · rw [if_neg (by simp [hstart]), if_pos (by simp [hsafe])]
    exact ⟨rfl, _, rfl, Or.inr ⟨args.url, rfl⟩⟩
  · rw [if_pos (by simp [Bool.not_eq_true] at hstart ⊢; exact hstart)]
    exact ⟨rfl, _, rfl, Or.inl ⟨args.url ++ ". Must start with http:// or https://", rfl⟩⟩

/-- Witness for C8 at a loopback URL: the request is blocked. -/
theorem c8_unsafe_url_no_request_witness :
    ("localhost" ∈ blockedHosts) ∧
    ((webExecute ⟨"http://localhost:8000/admin", "GET", none, none, 30, 1048576⟩
        (some ⟨"http", some "localhost"⟩) (fun _ => none) (fun _ => none)
        (.raises .timeoutErr)).2.requested = false ∧
      ∃ s, (webExecute ⟨"http://localhost:8000/admin", "GET", none, none, 30, 1048576⟩
          (some ⟨"http", some "localhost"⟩) (fun _ => none) (fun _ => none)
          (.raises .timeoutErr)).1 = Except.ok s ∧
        ((∃ rest, s = "Invalid URL: " ++ rest) ∨
         (∃ rest, s = "Access denied: URL blocked for security: " ++ rest))) :=
  ⟨by decide,
   c8_unsafe_url_no_request ⟨"http://localhost:8000/admin", "GET", none, none, 30, 1048576⟩
     ⟨"http", some "localhost"⟩ (fun _ => none) (fun _ => none) (.raises .timeoutErr)
     (Or.inr ⟨"localhost", rfl, by decide⟩)⟩

theorem effectiveLimit_nonneg (m : Int) (hm : 0 ≤ m) : 0 ≤ effectiveLimit m := by
  unfold effectiveLimit
  omega

theorem pySliceTo_length_le (k : Int) (l : List Nat) (hk : 0 ≤ k) :
    ((pySliceTo k l).length : Int) ≤ k := by
  unfold pySliceTo
  rw [if_pos hk, List.length_take]
  omega

theorem pySliceTo_length_of_lt (k : Int) (l : List Nat) (hk : 0 ≤ k)
    (hlt : k < (l.length : Int)) : (pySliceTo k l).length = k.toNat := by
  unfold pySliceTo
  rw [if_pos hk, List.length_take]
  omega

/-- Counterexample to C9 as stated: with a requested `max_content_length`
of -1 the capped limit is `min(-1, 10485760) = -1`, and the Python slice
`content[:-1]` keeps all but the last byte, so a 3-byte body contributes 2
bytes of included content — which exceeds the "effective limit" of -1 and
is not "exactly that many bytes". -/
theorem c9_content_limit_counterexample :
    (webExecute ⟨"http://example.com/data", "GET", none, none, 30, -1⟩
        (some ⟨"http", some "example.com"⟩) (fun _ => some "AB") (fun _ => some "AB")
        (.success ⟨200, "OK", "http://example.com/data", some "text/plain", none,
          [65, 66, 67]⟩)).2.effectiveLimit = some (-1) ∧
    (webExecute ⟨"http://example.com/data", "GET", none, none, 30, -1⟩
        (some ⟨"http", some "example.com"⟩) (fun _ => some "AB") (fun _ => some "AB")
        (.success ⟨200, "OK", "http://example.com/data", some "text/plain", none,
          [65, 66, 67]⟩)).2.includedBody = [65, 66] ∧
    ¬ (((webExecute ⟨"http://example.com/data", "GET", none, none, 30, -1⟩
        (some ⟨"http", some "example.com"⟩) (fun _ => some "AB") (fun _ => some "AB")
        (.success ⟨200, "OK", "http://example.com/data", some "text/plain", none,
          [65, 66, 67]⟩)).2.includedBody.length : Int) ≤ -1) := by
  refine ⟨by decide, by decide, by decide⟩

/-- The truncating branch of the body-reading code: with a nonnegative
capped limit smaller than the body, the trace flags truncation, the
included content is either absent (binary) or exactly the capped number of
bytes, and a decodable truncated body puts the truncation marker into the
returned text. -/
theorem webSuccessBody_truncated (eff : Int) (resp : HttpResponse)
    (utf8Decode latin1Decode : List Nat → Option String)
    (heff0 : 0 ≤ eff) (hbig : eff < (resp.body.length : Int)) :
    (webSuccessBody eff resp utf8Decode latin1Decode).2.truncated = true ∧
    ((webSuccessBody eff resp utf8Decode latin1Decode).2.includedBody = [] ∨
      (webSuccessBody eff resp utf8Decode latin1Decode).2.includedBody.length = eff.toNat) ∧
    (∀ t, utf8Decode (pySliceTo eff resp.body) = some t →
      ∃ s1 s2, (webSuccessBody eff resp utf8Decode latin1Decode).1 =
        Except.ok (s1 ++ (truncMarker eff ++ s2))) := by
  have htr : decide (eff < (resp.body.length : Int)) = true := decide_eq_true hbig
  simp only [webSuccessBody, htr, if_true]
  cases hu : utf8Decode (pySliceTo eff resp.body) with
  | some t =>
      simp only [hu]
      refine ⟨by trivial, Or.inr (pySliceTo_length_of_lt eff resp.body heff0 hbig), ?_⟩
      intro t2 ht2
      cases ht2
      exact ⟨webHeaderText resp (pySliceTo eff resp.body).length,
        "\n" ++ fiftyEquals ++ "\n" ++ t, rfl⟩
  | none =>
      simp only [hu]
      cases hl : latin1Decode (pySliceTo eff resp.body) with
      | some t =>
          simp only [hl]
          refine ⟨by trivial, Or.inr (pySliceTo_length_of_lt eff resp.body heff0 hbig), ?_⟩
          intro t2 ht2
          cases ht2
      | none =>
          simp only [hl]
          refine ⟨by trivial, Or.inl (by trivial), ?_⟩
          intro t2 ht2
          cases ht2

/-- Claim C9, amended: for a nonnegative requested `max_content_length` the
effective limit is `min(requested, 10485760)`; the body bytes included in
the returned text never exceed it; a larger body is truncated to exactly
the effective limit and flagged, and when the truncated content decodes as
text the returned text carries the truncation marker (an undecodable
truncated body is not included at all: the result is a binary-content
notice).  For negative requested values the Python slice `content[:m]`
keeps all but the last `|m|` bytes, so the included body can exceed the
(negative) "effective limit" — see the counterexample. -/
theorem c9_content_limit_amended (args : WebArgs) (parsed : Option ParsedUrl)
    (utf8Decode latin1Decode : List Nat → Option String) (net : UrlopenOutcome)
    (hm : 0 ≤ args.maxContentLength) :
    (((webExecute args parsed utf8Decode latin1Decode net).2.includedBody.length : Int) ≤
        effectiveLimit args.maxContentLength) ∧
    (∀ v, (webExecute args parsed utf8Decode latin1Decode net).2.effectiveLimit = some v →
      v = effectiveLimit args.maxContentLength) ∧
    (∀ resp, net = UrlopenOutcome.success resp →
      (pyStartsWith args.url "http://" || pyStartsWith args.url "https://") = true →
      isSafeUrl parsed = true →
      (∀ cl, resp.contentLengthHeader = some cl → cl ≤ effectiveLimit args.maxContentLength) →
      effectiveLimit args.maxContentLength < (resp.body.length : Int) →
        (webExecute args parsed utf8Decode latin1Decode net).2.truncated = true ∧
        ((webExecute args parsed utf8Decode latin1Decode net).2.includedBody = [] ∨
          (webExecute args parsed utf8Decode latin1Decode net).2.includedBody.length =
            (effectiveLimit args.maxContentLength).toNat) ∧
        (∀ t, utf8Decode (pySliceTo (effectiveLimit args.maxContentLength) resp.body) = some t →
          ∃ s1 s2, (webExecute args parsed utf8Decode latin1Decode net).1 =
            Except.ok (s1 ++ (truncMarker (effectiveLimit args.maxContentLength) ++ s2)))) := by
  have heff0 : 0 ≤ effectiveLimit args.maxContentLength := effectiveLimit_nonneg _ hm
  refine ⟨?_, ?_, ?_⟩
  · simp only [webExecute, webMakeRequest, webSuccessBody]
    repeat' split
    all_goals dsimp only
    all_goals
      first
        | simpa using heff0
        | exact pySliceTo_length_le _ _ heff0
        | (simp only [decide_eq_true_eq] at *
           omega)
  · intro v hv
    simp only [webExecute, webMakeRequest, webSuccessBody] at hv
    repeat' split at hv
    all_goals simp_all
  · intro resp hnet hstart hsafe hcl hbig
    subst hnet
    have heq : webExecute args parsed utf8Decode latin1Decode (.success resp) =
        webSuccessBody (effectiveLimit args.maxContentLength) resp utf8Decode latin1Decode := by
      simp only [webExecute, webMakeRequest]
      rw [if_neg (by simp [hstart]), if_neg (by simp [hsafe])]
      cases hclh : resp.contentLengthHeader with
      | none => rfl
      | some cl =>
          have hle : ¬ (effectiveLimit args.maxContentLength < cl) := not_lt.mpr (hcl cl hclh)
          dsimp only
          rw [if_neg hle]
    rw [heq]
    exact webSuccessBody_truncated _ resp utf8Decode latin1Decode heff0 hbig

/-- Witness for C9's amended claim at a concrete 3-byte body and a
2-byte limit. -/
theorem c9_content_limit_amended_witness :
    (0 : Int) ≤ 2 ∧
    (((webExecute ⟨"http://example.com/big", "GET", none, none, 30, 2⟩
        (some ⟨"http", some "example.com"⟩) (fun _ => some "AB") (fun _ => some "AB")
        (.success ⟨200, "OK", "http://example.com/big", some "text/plain", none,
          [65, 66, 67]⟩)).2.includedBody.length : Int) ≤ effectiveLimit 2) :=
  ⟨by decide,
   (c9_content_limit_amended ⟨"http://example.com/big", "GET", none, none, 30, 2⟩
     (some ⟨"http", some "example.com"⟩) (fun _ => some "AB") (fun _ => some "AB")
     (.success ⟨200, "OK", "http://example.com/big", some "text/plain", none,
       [65, 66, 67]⟩) (by decide)).1⟩

/-! ## Configuration agent selection (`config.py`, claim C10)

`load_config` loads a JSON config dict from disk and then selects an agent
entry.  The file-reading half is external I/O; `loadConfigSelect` embeds
the selection half (lines 43-60) over `EagleConfig`, the projection of the
loaded dict onto the two keys the selection reads: `"agents"` (absent key:
`config["agents"]` raises KeyError) and `"verbose"`
(`config.get("verbose", True)`).  Agent entries are dicts themselves. -/

inductive ConfigVal where
  | vStr (s : String)
  | vBool (b : Bool)
  | vInt (n : Int)
  | vList (xs : List String)
deriving DecidableEq, Repr

structure EagleConfig where
  agentsKey : Option (List (List (String × ConfigVal)))
  verboseKey : Option ConfigVal
deriving Repr

/-- Python truthiness of the optional `agent_name` argument: `None` and the
empty string are falsy. -/
def strTruthy : Option String → Bool
  | none => false
  | some s => !(s.data.isEmpty)

/-- The `for agent in config["agents"]` search: the first entry whose
`"name"` value equals the requested name; an entry without a `"name"` key
raises KeyError. -/
def findAgentByName (nm : String) :
    List (List (String × ConfigVal)) → Except PyExc (Option (List (String × ConfigVal)))
  | [] => .ok none
  | a :: rest =>
      match getKey a "name" with
      | none => .error (.keyError "name")
      | some v => if v = ConfigVal.vStr nm then .ok (some a) else findAgentByName nm rest

/-- Translated from `load_config` in `config.py`, lines 43-60: pick the
named agent (raising ValueError when a truthy name matches nothing) or the
first agent (raising ValueError when the agents list is empty), and return
a copy of its dict with `"verbose"` set to the top-level value, default
True. -/
def loadConfigSelect (agentName : Option String) (cfg : EagleConfig) :
    Except PyExc (List (String × ConfigVal)) :=
  let vb := cfg.verboseKey.getD (ConfigVal.vBool true)
  if strTruthy agentName then
    match cfg.agentsKey with
    | none => .error (.keyError "agents")
    | some agents =>
        match findAgentByName (agentName.getD "") agents with
        | .error e => .error e
        | .ok (some agent) => .ok (setKey agent "verbose" vb)
        | .ok none =>
            .error (.valueError
              ("Agent \x27" ++ agentName.getD "" ++ "\x27 not found in configuration"))
  else
    match cfg.agentsKey with
    | none => .error (.keyError "agents")
    | some agents =>
        match agents with
        | [] => .error (.valueError "No agents defined in configuration")
        | agent :: _ => .ok (setKey agent "verbose" vb)

/-- Counterexample to C10 as stated: the empty string is a non-None
`agent_name` matching no agent, so the claim demands a ValueError — but
`if agent_name:` is Python truthiness, the empty string is falsy, and the
code returns the first agent instead. -/
theorem c10_load_config_counterexample :
    loadConfigSelect (some "")
        ⟨some [[("name", ConfigVal.vStr "writer"), ("model", ConfigVal.vStr "gpt-4")]], none⟩ =
      Except.ok [("name", ConfigVal.vStr "writer"), ("model", ConfigVal.vStr "gpt-4"),
        ("verbose", ConfigVal.vBool true)] ∧
    ∀ m, loadConfigSelect (some "")
        ⟨some [[("name", ConfigVal.vStr "writer"), ("model", ConfigVal.vStr "gpt-4")]], none⟩ ≠
      Except.error (PyExc.valueError m) :=
  ⟨rfl, fun _ h => Except.noConfusion h⟩

theorem findAgentByName_none (nm : String) (l : List (List (String × ConfigVal)))
    (hname : ∀ a ∈ l, (getKey a "name").isSome = true)
    (hno : ∀ a ∈ l, getKey a "name" ≠ some (ConfigVal.vStr nm)) :
    findAgentByName nm l = .ok none := by
  induction l with
  | nil => rfl
  | cons a rest ih =>
      have hs := hname a (List.mem_cons_self a rest)
      cases hk : getKey a "name" with
      | none => rw [hk] at hs; simp at hs
      | some v =>
          simp only [findAgentByName, hk]
          have hne : v ≠ ConfigVal.vStr nm := by
            intro he
            exact hno a (List.mem_cons_self a rest) (by rw [hk, he])
          rw [if_neg hne]
          exact ih (fun b hb => hname b (List.mem_cons_of_mem a hb))
            (fun b hb => hno b (List.mem_cons_of_mem a hb))

theorem findAgentByName_found (nm : String) (pre : List (List (String × ConfigVal)))
    (agent : List (String × ConfigVal)) (post : List (List (String × ConfigVal)))
    (hnamePre : ∀ b ∈ pre, (getKey b "name").isSome = true)
    (hnoPre : ∀ b ∈ pre, getKey b "name" ≠ some (ConfigVal.vStr nm))
    (hmatch : getKey agent "name" = some (ConfigVal.vStr nm)) :
    findAgentByName nm (pre ++ agent :: post) = .ok (some agent) := by
  induction pre with
  | nil =>
      simp only [List.nil_append, findAgentByName, hmatch, if_pos]
  | cons b pre2 ih =>
      have hs := hnamePre b (List.mem_cons_self b pre2)
      cases hk : getKey b "name" with
      | none => rw [hk] at hs; simp at hs
      | some v =>
          simp only [List.cons_append, findAgentByName, hk]
          have hne : v ≠ ConfigVal.vStr nm := by
            intro he
            exact hnoPre b (List.mem_cons_self b pre2) (by rw [hk, he])
          rw [if_neg hne]
          exact ih (fun c hc => hnamePre c (List.mem_cons_of_mem b hc))
            (fun c hc => hnoPre c (List.mem_cons_of_mem b hc))

/-- Claim C10, amended: `load_config` raises ValueError exactly when a
nonempty `agent_name` matches no entry of the agents list, or when
`agent_name` is None or empty and the agents list is empty; otherwise it
returns a copy of the selected agent's dict (the first entry whose name
equals `agent_name`, or the first agent when `agent_name` is None or
empty) with `"verbose"` set to the top-level value (default True), the
loaded configuration left unmodified.  (An empty-string `agent_name` is
falsy under `if agent_name:`, so it selects the first agent rather than
raising, contrary to the claim's reading of "non-None".) -/
theorem c10_load_config_amended (an : Option String) (cfg : EagleConfig)
    (agents : List (List (String × ConfigVal)))
    (hA : cfg.agentsKey = some agents)
    (hname : ∀ a ∈ agents, (getKey a "name").isSome = true) :
    (strTruthy an = true → ∀ s, an = some s →
      ((∀ a ∈ agents, getKey a "name" ≠ some (ConfigVal.vStr s)) →
        loadConfigSelect an cfg =
          Except.error (PyExc.valueError
            ("Agent \x27" ++ s ++ "\x27 not found in configuration"))) ∧
      (∀ pre agent post, agents = pre ++ agent :: post →
        getKey agent "name" = some (ConfigVal.vStr s) →
        (∀ b ∈ pre, getKey b "name" ≠ some (ConfigVal.vStr s)) →
        loadConfigSelect an cfg =
          Except.ok (setKey agent "verbose" (cfg.verboseKey.getD (ConfigVal.vBool true))))) ∧
    (strTruthy an = false →
      (agents = [] → loadConfigSelect an cfg =
        Except.error (PyExc.valueError "No agents defined in configuration")) ∧
      (∀ agent rest, agents = agent :: rest →
        loadConfigSelect an cfg =
          Except.ok (setKey agent "verbose" (cfg.verboseKey.getD (ConfigVal.vBool true))))) := by
  constructor
  · intro htruthy s hs
    subst hs
    constructor
    · intro hno
      simp only [loadConfigSelect, htruthy, if_pos, hA, Option.getD_some]
      rw [findAgentByName_none s agents hname hno]
    · intro pre agent post hsplit hmatch hnoPre
      subst hsplit
      simp only [loadConfigSelect, htruthy, if_pos, hA, Option.getD_some]
      rw [findAgentByName_found s pre agent post
        (fun b hb => hname b (List.mem_append_left _ hb))
        hnoPre hmatch]
  · intro hfalse
    constructor
    · intro hempty
      subst hempty
      simp [loadConfigSelect, hfalse, hA]
    · intro agent rest hsplit
      subst hsplit
      simp [loadConfigSelect, hfalse, hA]

/-- Witness for C10's amended claim: selecting the named agent `writer`. -/
theorem c10_load_config_amended_witness :
    strTruthy (some "writer") = true ∧
    loadConfigSelect (some "writer")
        ⟨some [[("name", ConfigVal.vStr "writer"), ("model", ConfigVal.vStr "gpt-4")]], none⟩ =
      Except.ok (setKey [("name", ConfigVal.vStr "writer"), ("model", ConfigVal.vStr "gpt-4")]
        "verbose" (ConfigVal.vBool true)) :=
  ⟨rfl,
   ((c10_load_config_amended (some "writer")
       ⟨some [[("name", ConfigVal.vStr "writer"), ("model", ConfigVal.vStr "gpt-4")]], none⟩
       [[("name", ConfigVal.vStr "writer"), ("model", ConfigVal.vStr "gpt-4")]]
       rfl (by decide)).1 rfl "writer" rfl).2
     [] [("name", ConfigVal.vStr "writer"), ("model", ConfigVal.vStr "gpt-4")] [] rfl
     (by decide) (fun b hb => absurd hb (List.not_mem_nil b))⟩

end EagleLang
